import Mathlib

/-!
Shallow embedding of the `EarlyAllocator` bump allocator
(`modules/bump_allocator/src/lib.rs`).

Values of the Rust type `usize` are modelled as natural numbers below
`U = 2 ^ 64`.  Wrapping arithmetic is written with an explicit `% U`,
`checked_add` / `checked_mul` return `Option`, and `saturating_sub`
coincides with truncated subtraction on `Nat`.
-/

namespace BumpAllocator

/-- Number of values of the 64-bit `usize` type; `usize::MAX = U - 1`. -/
def U : Nat := 2 ^ 64

/-- Rust `a.checked_add(b)` on `usize`. -/
def checked_add (a b : Nat) : Option Nat :=
  if a + b < U then some (a + b) else none

/-- Rust `a.checked_mul(b)` on `usize`. -/
def checked_mul (a b : Nat) : Option Nat :=
  if a * b < U then some (a * b) else none

/-- Rust bitwise complement `!a` on `usize` (for `a < U` this is the
number whose 64-bit pattern flips every bit of `a`). -/
def usize_not (a : Nat) : Nat := U - 1 - a

/-- Error type of the `allocator` crate.  The bump allocator only ever
produces `NoMemory`. -/
inductive AllocError where
  | InvalidParam
  | MemoryOverlap
  | NoMemory
  | NotAllocated
  deriving DecidableEq, Repr

/-- Rust `AllocResult<T> = Result<T, AllocError>`. -/
abbrev AllocResult (α : Type) := Except AllocError α

/-- The five scalar fields of `EarlyAllocator`.  The const generic
page size `SIZE` is passed separately to the page operations. -/
structure EarlyAllocator where
  start : Nat
  end_ : Nat
  b_pos : Nat
  p_pos : Nat
  b_count : Nat
  deriving DecidableEq, Repr

/-- Rust `init(&mut self, start, size)`:
`self.end = start.checked_add(size).unwrap_or(0)`, both cursors are
reset to the two ends and the count is cleared.  Every field is
overwritten, so it is modelled as building a fresh state. -/
def init (start size : Nat) : EarlyAllocator :=
  let e := (checked_add start size).getD 0
  { start := start, end_ := e, b_pos := start, p_pos := e, b_count := 0 }

/-- Rust `add_memory(&mut self, start, size)`: always `Err(NoMemory)`,
no field is touched. -/
def add_memory (s : EarlyAllocator) (_start _size : Nat) :
    EarlyAllocator × AllocResult Unit :=
  (s, Except.error AllocError.NoMemory)

/-- Rust `alloc(&mut self, layout)` with `size = layout.size()` and
`align = layout.align()`.  `core::alloc::Layout` guarantees `align` is a
nonzero power of two, so `align - 1` cannot underflow; the sum
`b_pos + align - 1` uses wrapping `usize` addition, hence the `% U`. -/
def alloc (s : EarlyAllocator) (size align : Nat) :
    EarlyAllocator × AllocResult Nat :=
  let aligned_b_pos := ((s.b_pos + align - 1) % U) &&& usize_not (align - 1)
  match checked_add aligned_b_pos size with
  | none => (s, Except.error AllocError.NoMemory)
  | some new_b_pos =>
    if s.p_pos < new_b_pos then (s, Except.error AllocError.NoMemory)
    else ({ s with b_pos := new_b_pos, b_count := (s.b_count + 1) % U },
          Except.ok aligned_b_pos)

/-- Rust `dealloc(&mut self, pos, layout)`: reset `b_pos` to `ptr` when
`ptr + size` (wrapping) equals `b_pos`, otherwise do nothing. -/
def dealloc (s : EarlyAllocator) (ptr size : Nat) : EarlyAllocator :=
  if (ptr + size) % U = s.b_pos then { s with b_pos := ptr } else s

/-- Rust `total_bytes`: `end.saturating_sub(start)`. -/
def total_bytes (s : EarlyAllocator) : Nat := s.end_ - s.start

/-- Rust `used_bytes`: bytes used by both zones. -/
def used_bytes (s : EarlyAllocator) : Nat :=
  (s.b_pos - s.start) + (s.end_ - s.p_pos)

/-- Rust `available_bytes`: the gap between the two cursors. -/
def available_bytes (s : EarlyAllocator) : Nat := s.p_pos - s.b_pos

/-- Rust `alloc_pages(&mut self, num_pages, align_pow2)` with page size
`SIZE`.  `align_pow2 - 1` uses wrapping subtraction (written
`(align_pow2 + U - 1) % U`), and `p_pos - size` is saturating. -/
def alloc_pages (SIZE : Nat) (s : EarlyAllocator) (num_pages align_pow2 : Nat) :
    EarlyAllocator × AllocResult Nat :=
  match checked_mul num_pages SIZE with
  | none => (s, Except.error AllocError.NoMemory)
  | some size =>
    let unaligned_p_pos := s.p_pos - size
    let align_mask := (align_pow2 + U - 1) % U
    let aligned_new_p_pos := unaligned_p_pos &&& usize_not align_mask
    if aligned_new_p_pos < s.b_pos then (s, Except.error AllocError.NoMemory)
    else ({ s with p_pos := aligned_new_p_pos }, Except.ok aligned_new_p_pos)

/-- Rust `dealloc_pages(&mut self, pos, num_pages)`: empty body. -/
def dealloc_pages (s : EarlyAllocator) (_pos _num_pages : Nat) :
    EarlyAllocator := s

/-- Rust `total_pages`. -/
def total_pages (SIZE : Nat) (s : EarlyAllocator) : Nat :=
  total_bytes s / SIZE

/-- Rust `used_pages`. -/
def used_pages (SIZE : Nat) (s : EarlyAllocator) : Nat :=
  (s.end_ - s.p_pos) / SIZE

/-- Rust `available_pages`. -/
def available_pages (SIZE : Nat) (s : EarlyAllocator) : Nat :=
  available_bytes s / SIZE

/-- One external call to an initialised allocator, with its arguments. -/
inductive Op where
  | alloc (size align : Nat)
  | dealloc (ptr size : Nat)
  | alloc_pages (num_pages align_pow2 : Nat)
  | dealloc_pages (pos num_pages : Nat)
  | add_memory (start size : Nat)
  deriving DecidableEq, Repr

/-- Apply one call to the state, discarding the returned value. -/
def applyOp (SIZE : Nat) (s : EarlyAllocator) : Op → EarlyAllocator
  | Op.alloc size align => (alloc s size align).1
  | Op.dealloc ptr size => dealloc s ptr size
  | Op.alloc_pages n a => (alloc_pages SIZE s n a).1
  | Op.dealloc_pages p n => dealloc_pages s p n
  | Op.add_memory a b => (add_memory s a b).1

/-- Apply a sequence of calls from left to right. -/
def applyOps (SIZE : Nat) (s : EarlyAllocator) : List Op → EarlyAllocator
  | [] => s
  | op :: rest => applyOps SIZE (applyOp SIZE s op) rest

/-- The cursor chain together with the `usize` bound on `end`. -/
def Inv (s : EarlyAllocator) : Prop :=
  s.start ≤ s.b_pos ∧ s.b_pos ≤ s.p_pos ∧ s.p_pos ≤ s.end_ ∧ s.end_ < U

instance (s : EarlyAllocator) : Decidable (Inv s) :=
  inferInstanceAs (Decidable (_ ∧ _ ∧ _ ∧ _))

/-- Well-formedness of a call's arguments relative to the current state:
an `alloc` passes a power-of-two alignment whose cursor round-up does
not wrap around the address space, and a `dealloc` frees a block that
starts inside the managed region and whose end does not wrap. -/
def opOk (s : EarlyAllocator) : Op → Prop
  | Op.alloc _ align => (∃ k, align = 2 ^ k) ∧ s.b_pos + align ≤ U
  | Op.dealloc ptr size => s.start ≤ ptr ∧ ptr + size < U
  | _ => True

/-- States reachable from `init (start, size)` through well-formed
calls, starting from a non-overflowing region. -/
inductive ReachableOk (SIZE start size : Nat) : EarlyAllocator → Prop where
  | init : start + size < U → ReachableOk SIZE start size (init start size)
  | step {s : EarlyAllocator} {op : Op} : ReachableOk SIZE start size s →
      opOk s op → ReachableOk SIZE start size (applyOp SIZE s op)

/-- Whether the call, applied in state `s`, is an `alloc` that
succeeds. -/
def isSuccAlloc (s : EarlyAllocator) : Op → Bool
  | Op.alloc size align =>
    match (alloc s size align).2 with
    | Except.ok _ => true
    | Except.error _ => false
  | _ => false

/-- Number of successful `alloc` calls along a trace starting in `s`. -/
def succAllocs (SIZE : Nat) (s : EarlyAllocator) : List Op → Nat
  | [] => 0
  | op :: rest =>
    (if isSuccAlloc s op then 1 else 0) +
      succAllocs SIZE (applyOp SIZE s op) rest

/-- Bitwise AND never exceeds its left argument. -/
theorem land_le_left (x : Nat) : ∀ y : Nat, x &&& y ≤ x := by
  induction x using Nat.strong_induction_on with
  | _ x ih =>
    intro y
    by_cases hx : x = 0
    · subst hx; simp
    · have h1 : (x &&& y) / 2 = x / 2 &&& y / 2 := Nat.and_div_two
      have h2 : x / 2 &&& y / 2 ≤ x / 2 :=
        ih (x / 2) (Nat.div_lt_self (Nat.pos_of_ne_zero hx) one_lt_two) (y / 2)
      have h3 : (x &&& y) % 2 ≤ x % 2 := by
        rcases Nat.mod_two_eq_zero_or_one (x &&& y) with h | h
        · omega
        · rcases Nat.and_mod_two_eq_one.mp h with ⟨hx2, _⟩
          omega
      omega

/-- Clearing the low `k` bits of `x < 2 ^ n` with the mask
`2 ^ n - 2 ^ k` rounds `x` down to a multiple of `2 ^ k`. -/
theorem land_two_pow_compl {n k x : Nat} (hk : k ≤ n) (hx : x < 2 ^ n) :
    x &&& (2 ^ n - 2 ^ k) = 2 ^ k * (x / 2 ^ k) := by
  have hmask : 2 ^ n - 2 ^ k = (2 ^ (n - k) - 1) <<< k := by
    rw [Nat.shiftLeft_eq, Nat.sub_mul, Nat.one_mul, ← Nat.pow_add]
    rw [Nat.sub_add_cancel hk]
  have hdiv : 2 ^ k * (x / 2 ^ k) = (x >>> k) <<< k := by
    rw [Nat.shiftRight_eq_div_pow, Nat.shiftLeft_eq, Nat.mul_comm]
  rw [hmask, hdiv]
  apply Nat.eq_of_testBit_eq
  intro i
  rw [Nat.testBit_and, Nat.testBit_shiftLeft, Nat.testBit_shiftLeft,
    Nat.testBit_two_pow_sub_one, Nat.testBit_shiftRight]
  by_cases hik : k ≤ i
  · have hadd : k + (i - k) = i := by omega
    by_cases hin : i < n
    · have h1 : i - k < n - k := by omega
      simp [hik, h1, hadd]
    · have h2 : Nat.testBit x i = false :=
        Nat.testBit_lt_two_pow
          (lt_of_lt_of_le hx (Nat.pow_le_pow_right (by omega) (by omega)))
      simp [hik, hadd, h2]
  · simp [hik]

/-- The `usize` complement of the low-bits mask `2 ^ k - 1`. -/
theorem usize_not_two_pow_sub_one {k : Nat} (hk : k ≤ 64) :
    usize_not (2 ^ k - 1) = 2 ^ 64 - 2 ^ k := by
  have h1 : 2 ^ k ≤ 2 ^ 64 := Nat.pow_le_pow_right (by omega) hk
  have h2 : 1 ≤ 2 ^ k := Nat.one_le_two_pow
  unfold usize_not U
  omega

/-- Wrapping `align_pow2 - 1` on a power of two below `2 ^ 64`. -/
theorem align_mask_eq {k : Nat} (hk : k < 64) :
    (2 ^ k + U - 1) % U = 2 ^ k - 1 := by
  have h1 : 2 ^ k < 2 ^ 64 := Nat.pow_lt_pow_right (by omega) hk
  have h2 : 1 ≤ 2 ^ k := Nat.one_le_two_pow
  have h3 : 2 ^ k + U - 1 = (2 ^ k - 1) + U := by unfold U; omega
  rw [h3, Nat.add_mod_right, Nat.mod_eq_of_lt]
  unfold U; omega

/-- The rounded-up byte cursor computed by `alloc`: it is a multiple of
the alignment and lies between `b_pos` and `b_pos + align - 1`, provided
the round-up does not wrap. -/
theorem aligned_b_pos_spec {b k : Nat} (hnw : b + 2 ^ k ≤ U) :
    2 ^ k ∣ (((b + 2 ^ k - 1) % U) &&& usize_not (2 ^ k - 1)) ∧
    b ≤ (((b + 2 ^ k - 1) % U) &&& usize_not (2 ^ k - 1)) ∧
    (((b + 2 ^ k - 1) % U) &&& usize_not (2 ^ k - 1)) ≤ b + 2 ^ k - 1 := by
  have hpos : 1 ≤ 2 ^ k := Nat.one_le_two_pow
  have hkU : 2 ^ k ≤ 2 ^ 64 := le_trans (by omega) hnw
  have hk64 : k ≤ 64 := (Nat.pow_le_pow_iff_right (by omega)).mp hkU
  have ht : b + 2 ^ k - 1 < U := by unfold U at hnw ⊢; omega
  have hmod : (b + 2 ^ k - 1) % U = b + 2 ^ k - 1 := Nat.mod_eq_of_lt ht
  rw [hmod, usize_not_two_pow_sub_one hk64,
    land_two_pow_compl hk64 (by unfold U at ht; omega)]
  have hdm := Nat.div_add_mod (b + 2 ^ k - 1) (2 ^ k)
  have hlt : (b + 2 ^ k - 1) % 2 ^ k < 2 ^ k := Nat.mod_lt _ (by omega)
  exact ⟨Dvd.intro _ rfl, by omega, by omega⟩

/-- Complete case analysis of `alloc`: either it succeeds, commits
`b_pos := a + size`, bumps the count and returns the rounded-up cursor
`a`, or it fails with `NoMemory` and returns the state unchanged. -/
theorem alloc_cases (s : EarlyAllocator) (size align : Nat) :
    (∃ a, a = ((s.b_pos + align - 1) % U) &&& usize_not (align - 1) ∧
      a + size < U ∧ a + size ≤ s.p_pos ∧
      alloc s size align =
        ({ s with b_pos := a + size, b_count := (s.b_count + 1) % U },
         Except.ok a)) ∨
    alloc s size align = (s, Except.error AllocError.NoMemory) := by
  unfold alloc checked_add
  dsimp only
  by_cases h1 : (((s.b_pos + align - 1) % U) &&& usize_not (align - 1)) + size < U
  · rw [if_pos h1]
    dsimp only
    by_cases h2 : s.p_pos <
        (((s.b_pos + align - 1) % U) &&& usize_not (align - 1)) + size
    · right
      rw [if_pos h2]
    · left
      refine ⟨_, rfl, h1, by omega, ?_⟩
      rw [if_neg h2]
  · right
    rw [if_neg h1]

/-- Complete case analysis of `alloc_pages`: either it succeeds,
commits `p_pos := a` for the masked-down cursor `a` and returns `a`, or
it fails with `NoMemory` and returns the state unchanged. -/
theorem alloc_pages_cases (SIZE : Nat) (s : EarlyAllocator)
    (num_pages align_pow2 : Nat) :
    (∃ a, a = (s.p_pos - num_pages * SIZE) &&&
        usize_not ((align_pow2 + U - 1) % U) ∧
      num_pages * SIZE < U ∧ s.b_pos ≤ a ∧ a ≤ s.p_pos ∧
      alloc_pages SIZE s num_pages align_pow2 =
        ({ s with p_pos := a }, Except.ok a)) ∨
    alloc_pages SIZE s num_pages align_pow2 =
      (s, Except.error AllocError.NoMemory) := by
  unfold alloc_pages checked_mul
  dsimp only
  by_cases h1 : num_pages * SIZE < U
  · rw [if_pos h1]
    dsimp only
    by_cases h2 : (s.p_pos - num_pages * SIZE) &&&
        usize_not ((align_pow2 + U - 1) % U) < s.b_pos
    · right
      rw [if_pos h2]
    · left
      have hle : (s.p_pos - num_pages * SIZE) &&&
          usize_not ((align_pow2 + U - 1) % U) ≤ s.p_pos :=
        le_trans (land_le_left _ _) (Nat.sub_le _ _)
      refine ⟨_, rfl, h1, by omega, hle, ?_⟩
      rw [if_neg h2]
  · right
    rw [if_neg h1]

/-- `alloc` preserves the cursor invariant when the alignment is a
power of two and the cursor round-up cannot wrap. -/
theorem inv_alloc {s : EarlyAllocator} {size align : Nat} (h : Inv s)
    (hpow : ∃ k, align = 2 ^ k) (hnw : s.b_pos + align ≤ U) :
    Inv (alloc s size align).1 := by
  obtain ⟨k, rfl⟩ := hpow
  rcases alloc_cases s size (2 ^ k) with ⟨a, ha, hU, hp, heq⟩ | heq
  · have hspec := aligned_b_pos_spec (b := s.b_pos) (k := k) hnw
    rw [← ha] at hspec
    obtain ⟨hdvd, hba, hab⟩ := hspec
    obtain ⟨h1, h2, h3, h4⟩ := h
    rw [heq]
    unfold Inv
    dsimp only
    exact ⟨by omega, by omega, h3, h4⟩
  · rw [heq]
    exact h

/-- `dealloc` preserves the cursor invariant when the freed block
starts inside the region and its end does not wrap. -/
theorem inv_dealloc {s : EarlyAllocator} {ptr size : Nat} (h : Inv s)
    (hlo : s.start ≤ ptr) (hnw : ptr + size < U) :
    Inv (dealloc s ptr size) := by
  unfold dealloc
  obtain ⟨h1, h2, h3, h4⟩ := h
  by_cases hc : (ptr + size) % U = s.b_pos
  · rw [if_pos hc]
    rw [Nat.mod_eq_of_lt hnw] at hc
    unfold Inv
    dsimp only
    exact ⟨hlo, by omega, h3, h4⟩
  · rw [if_neg hc]
    exact ⟨h1, h2, h3, h4⟩

/-- `alloc_pages` preserves the cursor invariant unconditionally. -/
theorem inv_alloc_pages (SIZE : Nat) {s : EarlyAllocator}
    (num_pages align_pow2 : Nat) (h : Inv s) :
    Inv (alloc_pages SIZE s num_pages align_pow2).1 := by
  rcases alloc_pages_cases SIZE s num_pages align_pow2 with
    ⟨a, _, _, hb, hp, heq⟩ | heq
  · obtain ⟨h1, h2, h3, h4⟩ := h
    rw [heq]
    unfold Inv
    dsimp only
    exact ⟨h1, hb, by omega, h4⟩
  · rw [heq]
    exact h

/-- Every state reachable through well-formed calls satisfies the
cursor invariant. -/
theorem inv_reachableOk {SIZE start size : Nat} {s : EarlyAllocator}
    (h : ReachableOk SIZE start size s) : Inv s := by
  induction h with
  | init hof =>
    unfold init checked_add Inv
    simp only [if_pos hof, Option.getD_some]
    unfold U at hof ⊢
    exact ⟨le_refl _, by omega, le_refl _, by omega⟩
  | step hr hok ih =>
    rename_i s op
    cases op with
    | alloc sz al => exact inv_alloc ih hok.1 hok.2
    | dealloc p sz => exact inv_dealloc ih hok.1 hok.2
    | alloc_pages n a => exact inv_alloc_pages SIZE n a ih
    | dealloc_pages p n => exact ih
    | add_memory a b => exact ih

/-- C1 counterexample: the claim fails as stated.  With page size 4096,
after `init 0 4096` the call `alloc_pages 2 1` succeeds (the saturating
subtraction hides that the request exceeds the region) and returns 0,
yet `end - 0 = 4096 < 2 * 4096`; and after `init 5 12288` the call
`alloc_pages 1 1` succeeds returning 8197, which is not a multiple of
the page size. -/
theorem alloc_pages_overcommit_cex :
    (alloc_pages 4096 (init 0 4096) 2 1).2 = Except.ok 0 ∧
    ¬ (2 * 4096 ≤ (init 0 4096).end_ - 0) ∧
    (alloc_pages 4096 (init 5 12288) 1 1).2 = Except.ok 8197 ∧
    ¬ ((4096 : Nat) ∣ 8197) := by
  refine ⟨by rfl, by decide, by rfl, by omega⟩

/-- C1 (amended): for every successful `alloc_pages (n, align)` on a
state satisfying the cursor invariant, with `align = 2 ^ k` and
`k < 64`, the returned address is a multiple of `align`; and provided
`n * SIZE ≤ p_pos` (the internal saturating subtraction does not
truncate), `end - returned ≥ n * SIZE`.  The returned address need not
be a multiple of the page size. -/
theorem alloc_pages_aligned_and_bounded (SIZE : Nat) (s : EarlyAllocator)
    (n align k a : Nat) (hInv : Inv s) (hpow : align = 2 ^ k) (hk : k < 64)
    (hok : (alloc_pages SIZE s n align).2 = Except.ok a) :
    2 ^ k ∣ a ∧ (n * SIZE ≤ s.p_pos → n * SIZE ≤ s.end_ - a) := by
  subst hpow
  obtain ⟨h1, h2, h3, h4⟩ := hInv
  rcases alloc_pages_cases SIZE s n (2 ^ k) with
    ⟨b, hb, hU, hbb, hbp, heq⟩ | heq
  · rw [heq] at hok
    dsimp only at hok
    injection hok with hba
    subst hba
    rw [align_mask_eq hk, usize_not_two_pow_sub_one (le_of_lt hk)] at hb
    have hx : s.p_pos - n * SIZE < 2 ^ 64 := by
      have := Nat.sub_le s.p_pos (n * SIZE)
      unfold U at h4
      omega
    rw [land_two_pow_compl (le_of_lt hk) hx] at hb
    constructor
    · exact ⟨_, hb⟩
    · intro hsat
      have hle : b ≤ s.p_pos - n * SIZE := by
        rw [hb]
        exact Nat.mul_div_le _ _
      omega
  · rw [heq] at hok
    exact Except.noConfusion hok

/-- C1 witness: page size 4096, region `[4096, 69632)`, a successful
two-page allocation aligned to 4096 returns 61440. -/
theorem alloc_pages_aligned_and_bounded_wit :
    2 ^ 12 ∣ 61440 ∧
    (2 * 4096 ≤ (init 4096 65536).p_pos →
      2 * 4096 ≤ (init 4096 65536).end_ - 61440) :=
  alloc_pages_aligned_and_bounded 4096 (init 4096 65536) 2 4096 12 61440
    (by decide) (by decide) (by decide) (by rfl)

/-- C2 counterexample: the invariant does not hold for every sequence
of calls.  `init (usize::MAX, 2)` saturates `end` to 0 and leaves
`b_pos > p_pos`; and from `init 10 90`, an `alloc 4 1` followed by
`dealloc 2 12` (a block whose end matches `b_pos` but whose start lies
below the region) drags `b_pos` below `start`. -/
theorem invariant_violation_cex :
    ¬ ((init (U - 1) 2).b_pos ≤ (init (U - 1) 2).p_pos) ∧
    ¬ ((applyOps 4096 (init 10 90) [Op.alloc 4 1, Op.dealloc 2 12]).start ≤
        (applyOps 4096 (init 10 90) [Op.alloc 4 1, Op.dealloc 2 12]).b_pos) := by
  exact ⟨by decide, by decide⟩

/-- C2 (amended): `start ≤ b_pos ≤ p_pos ≤ end` holds in every state
reachable from `init (start, size)` provided `start + size` does not
overflow, every `alloc` passes a power-of-two alignment whose round-up
does not wrap, and every `dealloc` frees a block starting at or above
`start` whose end does not wrap. -/
theorem reachableOk_invariant (SIZE start size : Nat) (s : EarlyAllocator)
    (h : ReachableOk SIZE start size s) :
    s.start ≤ s.b_pos ∧ s.b_pos ≤ s.p_pos ∧ s.p_pos ≤ s.end_ := by
  obtain ⟨h1, h2, h3, _⟩ := inv_reachableOk h
  exact ⟨h1, h2, h3⟩

/-- C2 witness: the freshly initialised region `[4096, 69632)`. -/
theorem reachableOk_invariant_wit :
    (init 4096 65536).start ≤ (init 4096 65536).b_pos ∧
    (init 4096 65536).b_pos ≤ (init 4096 65536).p_pos ∧
    (init 4096 65536).p_pos ≤ (init 4096 65536).end_ :=
  reachableOk_invariant 4096 4096 65536 (init 4096 65536)
    (ReachableOk.init (by decide))

/-- C3 counterexample: after `init 0 256` the successful call
`alloc 16 8` returns the address 0, i.e. the null pointer, so the
unchecked non-null assertion is not justified for every successful
call; and after `init 4 4` the zero-size call `alloc 0 8` succeeds and
returns 8, which does not lie in `[start, end) = [4, 8)`. -/
theorem alloc_null_or_out_of_range_cex :
    (alloc (init 0 256) 16 8).2 = Except.ok 0 ∧
    (alloc (init 4 4) 0 8).2 = Except.ok 8 ∧
    ¬ (8 < (init 4 4).end_) := by
  refine ⟨by rfl, by rfl, by decide⟩

/-- C3 (amended): for every successful `alloc (size, align)` on a state
satisfying the cursor invariant with `0 < start`, `0 < size`,
`align = 2 ^ k` and a non-wrapping round-up, the returned address is
non-null, a multiple of `align`, and lies within `[start, end)`. -/
theorem alloc_result_in_range (s : EarlyAllocator) (size align k a : Nat)
    (hInv : Inv s) (hstart : 0 < s.start) (hsize : 0 < size)
    (hpow : align = 2 ^ k) (hnw : s.b_pos + align ≤ U)
    (hok : (alloc s size align).2 = Except.ok a) :
    a ≠ 0 ∧ 2 ^ k ∣ a ∧ s.start ≤ a ∧ a < s.end_ := by
  subst hpow
  rcases alloc_cases s size (2 ^ k) with ⟨b, hb, hU, hp, heq⟩ | heq
  · rw [heq] at hok
    dsimp only at hok
    injection hok with hba
    subst hba
    have hspec := aligned_b_pos_spec (b := s.b_pos) (k := k) hnw
    rw [← hb] at hspec
    obtain ⟨hdvd, hlo, hhi⟩ := hspec
    obtain ⟨h1, h2, h3, h4⟩ := hInv
    exact ⟨by omega, hdvd, by omega, by omega⟩
  · rw [heq] at hok
    exact Except.noConfusion hok

/-- C3 witness: in the region `[4096, 69632)`, `alloc 16 8` returns the
non-null, 8-aligned, in-range address 4096. -/
theorem alloc_result_in_range_wit :
    (4096 : Nat) ≠ 0 ∧ 2 ^ 3 ∣ 4096 ∧ (init 4096 65536).start ≤ 4096 ∧
    4096 < (init 4096 65536).end_ :=
  alloc_result_in_range (init 4096 65536) 16 8 3 4096 (by decide) (by decide)
    (by decide) (by decide) (by decide) (by rfl)

/-- C4 counterexample: when `start + size` overflows, `init` saturates
`end` to 0, and `total_bytes` is 0, not `size`. -/
theorem init_total_bytes_overflow_cex :
    total_bytes (init (U - 1) 2) ≠ 2 := by
  decide

/-- C4 (amended): for every `start` and `size` with `start + size`
below `2 ^ 64`, immediately after `init (start, size)` the state
satisfies `total_bytes = size`, `used_bytes = 0` and
`available_bytes = size`. -/
theorem init_stats (start size : Nat) (h : start + size < U) :
    total_bytes (init start size) = size ∧
    used_bytes (init start size) = 0 ∧
    available_bytes (init start size) = size := by
  unfold total_bytes used_bytes available_bytes init checked_add
  dsimp only
  rw [if_pos h]
  simp only [Option.getD_some]
  omega

/-- C4 witness: the `init 4096 65536` region. -/
theorem init_stats_wit :
    total_bytes (init 4096 65536) = 65536 ∧
    used_bytes (init 4096 65536) = 0 ∧
    available_bytes (init 4096 65536) = 65536 :=
  init_stats 4096 65536 (by decide)

/-- C5: every `alloc` or `alloc_pages` call that returns an error
returns `NoMemory` and leaves the state unchanged.  Both model
functions are total, matching the release-mode (wrapping) semantics in
which no operation panics. -/
theorem failed_calls_no_mutation (SIZE : Nat) (s : EarlyAllocator)
    (size align num_pages align_pow2 : Nat) :
    (∀ e, (alloc s size align).2 = Except.error e →
      e = AllocError.NoMemory ∧ (alloc s size align).1 = s) ∧
    (∀ e, (alloc_pages SIZE s num_pages align_pow2).2 = Except.error e →
      e = AllocError.NoMemory ∧
        (alloc_pages SIZE s num_pages align_pow2).1 = s) := by
  constructor
  · intro e he
    rcases alloc_cases s size align with ⟨a, _, _, _, heq⟩ | heq
    · rw [heq] at he
      exact Except.noConfusion he
    · rw [heq] at he ⊢
      injection he with h
      exact ⟨h.symm, rfl⟩
  · intro e he
    rcases alloc_pages_cases SIZE s num_pages align_pow2 with
      ⟨a, _, _, _, _, heq⟩ | heq
    · rw [heq] at he
      exact Except.noConfusion he
    · rw [heq] at he ⊢
      injection he with h
      exact ⟨h.symm, rfl⟩

/-- C5 witness: on the empty region `init 0 0`, a one-byte request
fails with `NoMemory` and does not change the state. -/
theorem failed_calls_no_mutation_wit :
    AllocError.NoMemory = AllocError.NoMemory ∧
    (alloc (init 0 0) 1 1).1 = init 0 0 :=
  (failed_calls_no_mutation 4096 (init 0 0) 1 1 0 0).1
    AllocError.NoMemory (by rfl)

/-- C6: `dealloc (ptr, size)` resets `b_pos` to `ptr` exactly when
`ptr + size = b_pos` and is a no-op otherwise (for non-wrapping
arguments); and in the concrete LIFO scenario of two 8-byte
allocations A = 4096 and B = 4104 from the empty byte zone of
`init 4096 256`, releasing A first is a no-op, then releasing B
reclaims 8 bytes, then releasing A reclaims the remaining 8 bytes. -/
theorem dealloc_lifo (s : EarlyAllocator) (ptr size : Nat)
    (hb : s.b_pos < U) :
    (ptr + size = s.b_pos → dealloc s ptr size = { s with b_pos := ptr }) ∧
    (ptr + size ≠ s.b_pos → ptr + size < U → dealloc s ptr size = s) ∧
    dealloc (applyOps 4096 (init 4096 256) [Op.alloc 8 1, Op.alloc 8 1])
        4096 8 =
      applyOps 4096 (init 4096 256) [Op.alloc 8 1, Op.alloc 8 1] ∧
    available_bytes
        (dealloc (applyOps 4096 (init 4096 256) [Op.alloc 8 1, Op.alloc 8 1])
          4104 8) =
      available_bytes
          (applyOps 4096 (init 4096 256) [Op.alloc 8 1, Op.alloc 8 1]) + 8 ∧
    available_bytes
        (dealloc
          (dealloc (applyOps 4096 (init 4096 256) [Op.alloc 8 1, Op.alloc 8 1])
            4104 8)
          4096 8) =
      available_bytes
          (dealloc (applyOps 4096 (init 4096 256) [Op.alloc 8 1, Op.alloc 8 1])
            4104 8) + 8 := by
  refine ⟨?_, ?_, by decide, by decide, by decide⟩
  · intro h
    unfold dealloc
    rw [if_pos (by rw [Nat.mod_eq_of_lt (h ▸ hb)]; exact h)]
  · intro hne hlt
    unfold dealloc
    rw [if_neg (by rw [Nat.mod_eq_of_lt hlt]; exact hne)]

/-- C6 witness: in `init 10 90`, releasing the block `[4, 10)` whose
end matches `b_pos = 10` resets `b_pos` to 4. -/
theorem dealloc_lifo_wit :
    dealloc (init 10 90) 4 6 = { init 10 90 with b_pos := 4 } :=
  (dealloc_lifo (init 10 90) 4 6 (by decide)).1 (by decide)

/-- C7 counterexample: in the state reached from `init 10 90` by
`alloc 4 1` then `dealloc 2 12` (which drags `b_pos` below `start`),
`used_bytes + available_bytes` is 98 while `total_bytes` is 90, so the
accounting identity does not hold for every reachable state. -/
theorem bytes_accounting_cex :
    used_bytes (applyOps 4096 (init 10 90) [Op.alloc 4 1, Op.dealloc 2 12]) +
      available_bytes
        (applyOps 4096 (init 10 90) [Op.alloc 4 1, Op.dealloc 2 12]) ≠
    total_bytes (applyOps 4096 (init 10 90) [Op.alloc 4 1, Op.dealloc 2 12]) := by
  decide

/-- C7 (amended): `used_bytes + available_bytes = total_bytes` holds in
every state reachable through well-formed calls (non-overflowing
`init`, power-of-two non-wrapping `alloc` alignments, `dealloc` of
blocks inside the region). -/
theorem bytes_accounting (SIZE start size : Nat) (s : EarlyAllocator)
    (h : ReachableOk SIZE start size s) :
    used_bytes s + available_bytes s = total_bytes s := by
  obtain ⟨h1, h2, h3, _⟩ := inv_reachableOk h
  unfold used_bytes available_bytes total_bytes
  omega

/-- C7 witness: the freshly initialised region `[8192, 12288)`. -/
theorem bytes_accounting_wit :
    used_bytes (init 8192 4096) + available_bytes (init 8192 4096) =
      total_bytes (init 8192 4096) :=
  bytes_accounting 4096 8192 4096 (init 8192 4096)
    (ReachableOk.init (by decide))

/-- Any single call leaves `p_pos` unchanged or moves it downward. -/
theorem p_pos_step (SIZE : Nat) (s : EarlyAllocator) (op : Op) :
    (applyOp SIZE s op).p_pos ≤ s.p_pos := by
  cases op with
  | alloc sz al =>
    rcases alloc_cases s sz al with ⟨a, _, _, _, heq⟩ | heq <;>
      · show (alloc s sz al).1.p_pos ≤ s.p_pos
        rw [heq]
  | dealloc p sz =>
    show (dealloc s p sz).p_pos ≤ s.p_pos
    unfold dealloc
    by_cases hc : (p + sz) % U = s.b_pos
    · rw [if_pos hc]
    · rw [if_neg hc]
  | alloc_pages n a =>
    rcases alloc_pages_cases SIZE s n a with ⟨b, _, _, _, hbp, heq⟩ | heq <;>
      · show (alloc_pages SIZE s n a).1.p_pos ≤ s.p_pos
        rw [heq]
        try exact hbp
  | dealloc_pages p n => exact le_refl _
  | add_memory a b => exact le_refl _

/-- C8: across any sequence of calls the page cursor never increases,
and `dealloc_pages` is always a no-op that modifies no state. -/
theorem p_pos_monotone (SIZE : Nat) (s : EarlyAllocator) (ops : List Op)
    (pos num_pages : Nat) :
    (applyOps SIZE s ops).p_pos ≤ s.p_pos ∧
    dealloc_pages s pos num_pages = s := by
  constructor
  · induction ops generalizing s with
    | nil => exact le_refl _
    | cons op rest ih =>
      exact le_trans (ih (applyOp SIZE s op)) (p_pos_step SIZE s op)
  · rfl

/-- C9: `add_memory` always fails with `NoMemory` and returns the
state unchanged. -/
theorem add_memory_always_fails (s : EarlyAllocator) (start size : Nat) :
    add_memory s start size = (s, Except.error AllocError.NoMemory) := rfl

/-- A call bumps `b_count` (mod `U`) exactly when it is a successful
`alloc`, and leaves it unchanged otherwise. -/
theorem b_count_step (SIZE : Nat) (s : EarlyAllocator) (op : Op) :
    (applyOp SIZE s op).b_count =
      if isSuccAlloc s op then (s.b_count + 1) % U else s.b_count := by
  cases op with
  | alloc sz al =>
    rcases alloc_cases s sz al with ⟨a, _, _, _, heq⟩ | heq <;>
      simp [applyOp, isSuccAlloc, heq]
  | dealloc p sz =>
    have hf : isSuccAlloc s (Op.dealloc p sz) = false := rfl
    rw [if_neg (by rw [hf]; exact Bool.false_ne_true)]
    show (dealloc s p sz).b_count = s.b_count
    unfold dealloc
    by_cases hc : (p + sz) % U = s.b_pos
    · rw [if_pos hc]
    · rw [if_neg hc]
  | alloc_pages n a =>
    have hf : isSuccAlloc s (Op.alloc_pages n a) = false := rfl
    rw [if_neg (by rw [hf]; exact Bool.false_ne_true)]
    rcases alloc_pages_cases SIZE s n a with ⟨b, _, _, _, _, heq⟩ | heq <;>
      · show (alloc_pages SIZE s n a).1.b_count = s.b_count
        rw [heq]
  | dealloc_pages p n => rfl
  | add_memory a b => rfl

/-- A trace cannot contain more successful `alloc` calls than it has
elements. -/
theorem succAllocs_le_length (SIZE : Nat) (ops : List Op) :
    ∀ s : EarlyAllocator, succAllocs SIZE s ops ≤ ops.length := by
  induction ops with
  | nil => intro s; exact le_refl _
  | cons op rest ih =>
    intro s
    have := ih (applyOp SIZE s op)
    unfold succAllocs
    by_cases hs : isSuccAlloc s op
    · rw [if_pos hs]
      simp only [List.length_cons]
      omega
    · rw [if_neg hs]
      simp only [List.length_cons]
      omega

/-- Running a trace adds the number of its successful `alloc` calls to
`b_count`, as long as the count does not reach the wrap-around bound. -/
theorem b_count_run (SIZE : Nat) (ops : List Op) :
    ∀ s : EarlyAllocator, s.b_count + succAllocs SIZE s ops < U →
      (applyOps SIZE s ops).b_count = s.b_count + succAllocs SIZE s ops := by
  induction ops with
  | nil => intro s _; rfl
  | cons op rest ih =>
    intro s h
    have hstep := b_count_step SIZE s op
    show (applyOps SIZE (applyOp SIZE s op) rest).b_count = _
    by_cases hs : isSuccAlloc s op
    · rw [if_pos hs] at hstep
      unfold succAllocs at h ⊢
      rw [if_pos hs] at h ⊢
      have h1 : (applyOp SIZE s op).b_count = s.b_count + 1 := by
        rw [hstep, Nat.mod_eq_of_lt (by omega)]
      rw [ih (applyOp SIZE s op) (by rw [h1]; omega), h1]
      omega
    · rw [if_neg hs] at hstep
      unfold succAllocs at h ⊢
      rw [if_neg hs] at h ⊢
      rw [ih (applyOp SIZE s op) (by rw [hstep]; omega), hstep]
      omega

/-- C10: `dealloc` leaves `b_count` (and `start`, `end`, `p_pos`)
unchanged, and after any sequence of calls from `init` shorter than
`2 ^ 64`, `b_count` equals the total number of successful `alloc`
calls since `init`, not the number of currently live allocations. -/
theorem b_count_counts_allocs (SIZE start size : Nat) (ops : List Op)
    (s2 : EarlyAllocator) (ptr sz : Nat) (hlen : ops.length < U) :
    ((dealloc s2 ptr sz).start = s2.start ∧
     (dealloc s2 ptr sz).end_ = s2.end_ ∧
     (dealloc s2 ptr sz).p_pos = s2.p_pos ∧
     (dealloc s2 ptr sz).b_count = s2.b_count) ∧
    (applyOps SIZE (init start size) ops).b_count =
      succAllocs SIZE (init start size) ops := by
  constructor
  · unfold dealloc
    by_cases hc : (ptr + sz) % U = s2.b_pos
    · rw [if_pos hc]
      exact ⟨rfl, rfl, rfl, rfl⟩
    · rw [if_neg hc]
      exact ⟨rfl, rfl, rfl, rfl⟩
  · have h0 : (init start size).b_count = 0 := rfl
    have hle := succAllocs_le_length SIZE ops (init start size)
    rw [b_count_run SIZE ops (init start size) (by omega), h0, Nat.zero_add]

/-- C10 witness: one successful allocation from `init 4096 256` leaves
`b_count = 1 = succAllocs`, and a `dealloc` on `init 0 0` leaves the
other four fields unchanged. -/
theorem b_count_counts_allocs_wit :
    ((dealloc (init 0 0) 0 0).start = (init 0 0).start ∧
     (dealloc (init 0 0) 0 0).end_ = (init 0 0).end_ ∧
     (dealloc (init 0 0) 0 0).p_pos = (init 0 0).p_pos ∧
     (dealloc (init 0 0) 0 0).b_count = (init 0 0).b_count) ∧
    (applyOps 4096 (init 4096 256) [Op.alloc 8 1]).b_count =
      succAllocs 4096 (init 4096 256) [Op.alloc 8 1] :=
  b_count_counts_allocs 4096 4096 256 [Op.alloc 8 1] (init 0 0) 0 0
    (by decide)

end BumpAllocator
